import Mathlib

/-!
Verification model of the rlox tree-walking interpreter
(scanner, parser, environment, interpreter from src/).
Rust `f32` is idealised as an exact-rational carrier extended with
NaN and signed infinities; IEEE rounding of finite results is not
modelled (no claim depends on rounding), but NaN/infinity propagation,
IEEE equality (NaN is unequal to everything, itself included) and the
saturating `as i32` cast are modelled faithfully.
-/

namespace Rlox

/-- Model of Rust `f32`: NaN, signed infinities, or a finite value
carried as an exact rational (rounding idealised away). -/
inductive F32 where
  | nan : F32
  | inf (neg : Bool) : F32
  | finite (q : ℚ) : F32
deriving DecidableEq, Repr

namespace F32

/-- Truncation toward zero of a rational, as in Rust `f32::trunc`. -/
def ratTrunc (q : ℚ) : ℤ := q.num.tdiv q.den

/-- Rust `==` on `f32` (IEEE equality): NaN compares unequal to
everything including itself; finite values compare by value. -/
def beq : F32 → F32 → Bool
  | nan, _ => false
  | _, nan => false
  | inf a, inf b => a == b
  | finite a, finite b => a == b
  | _, _ => false

/-- Rust `-` (unary negation) on `f32`. -/
def neg : F32 → F32
  | nan => nan
  | inf s => inf (!s)
  | finite q => finite (-q)

/-- Rust `+` on `f32` (finite addition idealised as exact). -/
def add : F32 → F32 → F32
  | nan, _ => nan
  | _, nan => nan
  | inf a, inf b => if a == b then inf a else nan
  | inf a, finite _ => inf a
  | finite _, inf b => inf b
  | finite a, finite b => finite (a + b)

/-- Rust `-` (binary) on `f32`. -/
def sub (a b : F32) : F32 := add a (neg b)

/-- Rust `*` on `f32`. -/
def mul : F32 → F32 → F32
  | nan, _ => nan
  | _, nan => nan
  | inf a, inf b => inf (a != b)
  | inf a, finite q => if q = 0 then nan else inf (a != decide (q < 0))
  | finite q, inf b => if q = 0 then nan else inf (b != decide (q < 0))
  | finite a, finite b => finite (a * b)

/-- Rust `/` on `f32`: `0.0 / 0.0` is NaN, division of a nonzero
finite value by zero is a signed infinity. -/
def div : F32 → F32 → F32
  | nan, _ => nan
  | _, nan => nan
  | inf _, inf _ => nan
  | inf a, finite q => inf (a != decide (q < 0))
  | finite _, inf _ => finite 0
  | finite a, finite b =>
      if b = 0 then
        (if a = 0 then nan else inf (decide (a < 0)))
      else finite (a / b)

/-- Rust `<` on `f32`: any comparison with NaN is false. -/
def lt : F32 → F32 → Bool
  | nan, _ => false
  | _, nan => false
  | inf a, inf b => a && !b
  | inf a, finite _ => a
  | finite _, inf b => !b
  | finite a, finite b => decide (a < b)

/-- Rust `<=` on `f32`. -/
def le : F32 → F32 → Bool
  | nan, _ => false
  | _, nan => false
  | inf a, inf b => a || !b
  | inf a, finite _ => a
  | finite _, inf b => !b
  | finite a, finite b => decide (a ≤ b)

/-- Rust `>` on `f32`. -/
def gt (a b : F32) : Bool := lt b a

/-- Rust `>=` on `f32`. -/
def ge (a b : F32) : Bool := le b a

/-- Rust `f32::fract` (`self - self.trunc()`); NaN for NaN and
infinities. -/
def fract : F32 → F32
  | nan => nan
  | inf _ => nan
  | finite q => finite (q - ratTrunc q)

/-- Rust saturating cast `as i32`: truncate toward zero and clamp to
the `i32` range; NaN casts to 0. -/
def asI32 : F32 → ℤ
  | nan => 0
  | inf true => -(2 ^ 31)
  | inf false => 2 ^ 31 - 1
  | finite q =>
      if ratTrunc q < -(2 ^ 31) then -(2 ^ 31)
      else if ratTrunc q > 2 ^ 31 - 1 then 2 ^ 31 - 1
      else ratTrunc q

/-- Modelled from the spec: the display form Rust `to_string` gives a
non-integral, NaN or infinite `f32` (shortest-decimal rendering is
idealised as an exact num/den rendering; no claim inspects it). -/
def display : F32 → List Char
  | nan => "NaN".data
  | inf true => "-inf".data
  | inf false => "inf".data
  | finite q => (Int.repr q.num).data ++ '/' :: (Int.repr q.den).data

end F32

/-- Modelled from the spec: `token_type.rs` is not among the provided
sources; the `TokenType` enumeration is reconstructed from the spec's
closed TokenKind list and from every use in scanner/parser/interpreter. -/
inductive TokenType where
  | LEFT_PAREN | RIGHT_PAREN | LEFT_BRACE | RIGHT_BRACE
  | COMMA | DOT | MINUS | PLUS | SEMICOLON | SLASH | STAR
  | BANG | BANG_EQUAL | EQUAL | EQUAL_EQUAL
  | GREATER | GREATER_EQUAL | LESS | LESS_EQUAL
  | IDENTIFIER | STRING | NUMBER
  | AND | CLASS | ELSE | FALSE | FUN | FOR | IF | NIL | OR
  | PRINT | RETURN | SUPER | THIS | TRUE | VAR | WHILE
  | EOF
deriving DecidableEq, Repr

/-- Modelled from the spec: the `Literal` payload enum of
`token_type.rs` (string or number payload, plus the `IDENTIFIER`
default used by `Token::to_string`). -/
inductive Literal where
  | STRING (s : List Char)
  | NUMBER (n : F32)
  | IDENTIFIER
deriving DecidableEq, Repr

/-- `Token` from token.rs: kind, verbatim lexeme, optional literal
payload, 1-based source line. Source text is carried as `List Char`. -/
structure Token where
  token_type : TokenType
  lexeme : List Char
  literal : Option Literal
  line : Nat
deriving DecidableEq, Repr

/-! ## Scanner (scanner.rs)

The Rust scanner keeps a single `usize` cursor that it uses both as a
*byte* offset (in `is_at_end`, which compares against `source.len()`,
and in the byte slices `&self.source[a..b]`) and as a *character*
index (in `self.source.chars().nth(current)`).  The model keeps one
`Nat` playing both roles, exactly as the source does.  A failed
`Option::unwrap`, an out-of-range or non-character-boundary slice is a
Rust panic, modelled as `none` / `.panicked`. -/

/-- UTF-8 byte length of a character sequence (Rust `String::len`). -/
def byteLen (s : List Char) : Nat := (s.map Char.utf8Size).sum

/-- Drop the first `n` bytes of a UTF-8 string; `none` when `n` is not
a character boundary or exceeds the length (a Rust slice panic). -/
def byteDrop : List Char → Nat → Option (List Char)
  | s, 0 => some s
  | [], _ + 1 => none
  | c :: s, n + 1 =>
      if c.utf8Size ≤ n + 1 then byteDrop s (n + 1 - c.utf8Size) else none

/-- Take the first `n` bytes of a UTF-8 string; `none` when `n` is not
a character boundary or exceeds the length. -/
def byteTake : List Char → Nat → Option (List Char)
  | _, 0 => some []
  | [], _ + 1 => none
  | c :: s, n + 1 =>
      if c.utf8Size ≤ n + 1 then (byteTake s (n + 1 - c.utf8Size)).map (c :: ·)
      else none

/-- Rust byte slice `&s[a..b]`; `none` models the slice panic. -/
def byteSlice (s : List Char) (a b : Nat) : Option (List Char) :=
  if a ≤ b then (byteDrop s a).bind (byteTake · (b - a)) else none

namespace Scanner

/-- Mutable scanner state (scanner.rs fields other than the source and
the fixed keyword table). -/
structure SState where
  start : Nat
  current : Nat
  line : Nat
  tokens : List Token
deriving DecidableEq, Repr

/-- Result of a scanner loop: normal value, Rust panic, or exhausted
fuel (the model's loop bound, never reached by the Rust code paths the
theorems evaluate). -/
inductive ScanR (σ : Type) where
  | ok (s : σ)
  | panicked
  | fuelOut
deriving DecidableEq, Repr

/-- Lift a possibly-panicking step into `ScanR`. -/
def liftO : Option SState → ScanR SState
  | some st => .ok st
  | none => .panicked

/-- `is_at_end`: byte offset at or past the source's byte length. -/
def is_at_end (src : List Char) (st : SState) : Bool :=
  byteLen src ≤ st.current

/-- `advance`: `chars().nth(current).unwrap()` then increment; the
`unwrap` of a missing character is a panic (`none`). -/
def advance (src : List Char) (st : SState) : Option (Char × SState) :=
  match src.get? st.current with
  | some c => some (c, { st with current := st.current + 1 })
  | none => none

/-- `peek`: NUL at end of input, else `chars().nth(current).unwrap()`. -/
def peek (src : List Char) (st : SState) : Option Char :=
  if is_at_end src st then some '\x00' else src.get? st.current

/-- `peek_next`. -/
def peek_next (src : List Char) (st : SState) : Option Char :=
  if byteLen src ≤ st.current + 1 then some '\x00'
  else src.get? (st.current + 1)

/-- `find`: conditionally consume an expected character (the Rust code
compares `chars().nth(current)` against `Some(expected)`, no unwrap). -/
def find (src : List Char) (expected : Char) (st : SState) :
    Bool × SState :=
  if is_at_end src st then (false, st)
  else if src.get? st.current = some expected then
    (true, { st with current := st.current + 1 })
  else (false, st)

/-- `add_literal`: push a token whose lexeme is the byte slice
`source[start..current]`. -/
def add_literal (src : List Char) (t : TokenType) (lit : Option Literal)
    (st : SState) : Option SState :=
  (byteSlice src st.start st.current).map fun text =>
    { st with tokens := st.tokens ++ [⟨t, text, lit, st.line⟩] }

/-- `add_token`. -/
def add_token (src : List Char) (t : TokenType) (st : SState) :
    Option SState :=
  add_literal src t none st

/-- `is_digit`. -/
def is_digit (c : Char) : Bool := '0' ≤ c && c ≤ '9'

/-- `is_alpha`. -/
def is_alpha (c : Char) : Bool :=
  ('a' ≤ c && c ≤ 'z') || ('A' ≤ c && c ≤ 'Z') || c == '_'

/-- `is_alphanumeric`. -/
def is_alphanumeric (c : Char) : Bool := is_alpha c || is_digit c

/-- The fixed keyword table. -/
def keywords (s : List Char) : Option TokenType :=
  List.lookup s
    [("and".data, .AND), ("class".data, .CLASS), ("else".data, .ELSE),
     ("false".data, .FALSE), ("for".data, .FOR), ("fun".data, .FUN),
     ("if".data, .IF), ("nil".data, .NIL), ("or".data, .OR),
     ("print".data, .PRINT), ("return".data, .RETURN),
     ("super".data, .SUPER), ("this".data, .THIS), ("true".data, .TRUE),
     ("var".data, .VAR), ("while".data, .WHILE)]

/-- The `//`-comment loop: `while peek() != NEWLINE && !is_at_end()`
advance (condition order as in the source: `peek` may panic first). -/
def commentLoop (src : List Char) : Nat → SState → ScanR SState
  | 0, _ => .fuelOut
  | fuel + 1, st =>
      match peek src st with
      | none => .panicked
      | some c =>
          if c != '\n' && !is_at_end src st then
            match advance src st with
            | none => .panicked
            | some (_, st1) => commentLoop src fuel st1
          else .ok st

/-- The string-body loop of `string()`. -/
def stringLoop (src : List Char) : Nat → SState → ScanR SState
  | 0, _ => .fuelOut
  | fuel + 1, st =>
      match peek src st with
      | none => .panicked
      | some c =>
          if c != '\x22' && !is_at_end src st then
            match advance src
                (if c == '\n' then { st with line := st.line + 1 } else st)
              with
            | none => .panicked
            | some (_, st2) => stringLoop src fuel st2
          else .ok st

/-- `string()`: scan to the closing quote; an unterminated string is
reported and produces no token; otherwise the literal payload is the
text strictly between the quotes and the lexeme the full slice. -/
def string (src : List Char) (fuel : Nat) (st : SState) : ScanR SState :=
  match stringLoop src fuel st with
  | .panicked => .panicked
  | .fuelOut => .fuelOut
  | .ok st1 =>
      if is_at_end src st1 then .ok st1
      else
        match advance src st1 with
        | none => .panicked
        | some (_, st2) =>
            match byteSlice src (st2.start + 1) (st2.current - 1) with
            | none => .panicked
            | some text =>
                liftO (add_literal src .STRING (some (.STRING text)) st2)

/-- The digit-consuming loop of `number()` (used twice). -/
def digitLoop (src : List Char) : Nat → SState → ScanR SState
  | 0, _ => .fuelOut
  | fuel + 1, st =>
      match peek src st with
      | none => .panicked
      | some c =>
          if is_digit c then
            match advance src st with
            | none => .panicked
            | some (_, st1) => digitLoop src fuel st1
          else .ok st

/-- Modelled from the spec: `text.parse::<f32>()` on a digit string
with at most one interior dot, idealised as the exact decimal value
(rounding to the nearest `f32` is not modelled): the digits accumulate
a mantissa and a count of fraction digits. -/
def parseNumber (text : List Char) : F32 :=
  let step : (ℕ × Option ℕ) → Char → (ℕ × Option ℕ) := fun acc c =>
    match acc with
    | (m, none) =>
        if c == '.' then (m, some 0)
        else (m * 10 + (c.toNat - '0'.toNat), none)
    | (m, some k) => (m * 10 + (c.toNat - '0'.toNat), some (k + 1))
  match text.foldl step (0, none) with
  | (m, none) => .finite (m : ℚ)
  | (m, some k) => .finite (mkRat (m : ℤ) (10 ^ k))

/-- The fraction-lookahead step of `number()`: consume a `.` only when
it is followed by a digit (`peek`/`peek_next` may panic). -/
def numberDot (src : List Char) (st1 : SState) : ScanR SState :=
  match peek src st1 with
  | none => .panicked
  | some c =>
      if c == '.' then
        match peek_next src st1 with
        | none => .panicked
        | some c2 =>
            if is_digit c2 then
              match advance src st1 with
              | none => .panicked
              | some (_, st2) => .ok st2
            else .ok st1
      else .ok st1

/-- `number()`. -/
def number (src : List Char) (fuel : Nat) (st : SState) : ScanR SState :=
  match digitLoop src fuel st with
  | .panicked => .panicked
  | .fuelOut => .fuelOut
  | .ok st1 =>
      match numberDot src st1 with
      | .panicked => .panicked
      | .fuelOut => .fuelOut
      | .ok st2 =>
          match digitLoop src fuel st2 with
          | .panicked => .panicked
          | .fuelOut => .fuelOut
          | .ok st3 =>
              match byteSlice src st3.start st3.current with
              | none => .panicked
              | some text =>
                  liftO (add_literal src .NUMBER
                    (some (.NUMBER (parseNumber text))) st3)

/-- The alphanumeric loop of `identifier()`. -/
def identLoop (src : List Char) : Nat → SState → ScanR SState
  | 0, _ => .fuelOut
  | fuel + 1, st =>
      match peek src st with
      | none => .panicked
      | some c =>
          if is_alphanumeric c then
            match advance src st with
            | none => .panicked
            | some (_, st1) => identLoop src fuel st1
          else .ok st

/-- `identifier()`: consume the word, look it up in the keyword table,
fall back to `IDENTIFIER`. -/
def identifier (src : List Char) (fuel : Nat) (st : SState) :
    ScanR SState :=
  match identLoop src fuel st with
  | .panicked => .panicked
  | .fuelOut => .fuelOut
  | .ok st1 =>
      match byteSlice src st1.start st1.current with
      | none => .panicked
      | some text =>
          liftO (add_token src
            (match keywords text with
             | none => TokenType.IDENTIFIER
             | some t => t) st1)

/-- `scan_token()`: dispatch on the freshly advanced character.  The
unknown-character branch only reports an error and emits nothing. -/
def scan_token (src : List Char) (fuel : Nat) (st : SState) :
    ScanR SState :=
  match advance src st with
  | none => .panicked
  | some (c, st) =>
      if c == '(' then liftO (add_token src .LEFT_PAREN st)
      else if c == ')' then liftO (add_token src .RIGHT_PAREN st)
      else if c == '\x7b' then liftO (add_token src .LEFT_BRACE st)
      else if c == '\x7d' then liftO (add_token src .RIGHT_BRACE st)
      else if c == ',' then liftO (add_token src .COMMA st)
      else if c == '.' then liftO (add_token src .DOT st)
      else if c == '-' then liftO (add_token src .MINUS st)
      else if c == '+' then liftO (add_token src .PLUS st)
      else if c == ';' then liftO (add_token src .SEMICOLON st)
      else if c == '*' then liftO (add_token src .STAR st)
      else if c == '!' then
        let (found, st1) := find src '=' st
        liftO (add_token src (if found then .BANG_EQUAL else .BANG) st1)
      else if c == '=' then
        let (found, st1) := find src '=' st
        liftO (add_token src (if found then .EQUAL_EQUAL else .EQUAL) st1)
      else if c == '>' then
        let (found, st1) := find src '=' st
        liftO (add_token src (if found then .GREATER_EQUAL else .GREATER) st1)
      else if c == '<' then
        let (found, st1) := find src '=' st
        liftO (add_token src (if found then .LESS_EQUAL else .LESS) st1)
      else if c == '/' then
        let (found, st1) := find src '/' st
        if found then commentLoop src fuel st1
        else liftO (add_token src .SLASH st1)
      else if c == ' ' then .ok st
      else if c == '\x0d' then .ok st
      else if c == '\t' then .ok st
      else if c == '\n' then .ok { st with line := st.line + 1 }
      else if c == '\x22' then string src fuel st
      else if is_digit c then number src fuel st
      else if is_alpha c then identifier src fuel st
      else .ok st

/-- The `scan_tokens` driving loop: reset `start` and scan one token
while not at end. -/
def scanLoop (src : List Char) : Nat → SState → ScanR SState
  | 0, _ => .fuelOut
  | fuel + 1, st =>
      if is_at_end src st then .ok st
      else
        match scan_token src fuel { st with start := st.current } with
        | .ok st1 => scanLoop src fuel st1
        | .panicked => .panicked
        | .fuelOut => .fuelOut

/-- Overall scan outcome: the token list, a Rust panic, or model fuel
exhaustion. -/
inductive ScanRes where
  | toks (ts : List Token)
  | panicked
  | fuelOut
deriving DecidableEq, Repr

/-- `scan_tokens()`: run the loop from the initial state, then append
the single EOF token (empty lexeme, current line). -/
def scan_tokens (src : List Char) : ScanRes :=
  match scanLoop src (byteLen src + 1) ⟨0, 0, 1, []⟩ with
  | .ok st => .toks (st.tokens ++ [⟨.EOF, [], none, st.line⟩])
  | .panicked => .panicked
  | .fuelOut => .fuelOut

end Scanner

/-! ## AST (ast.rs)

`Expression` and `LiteralExpression` are translated from ast.rs.  The
provided revision of ast.rs predates the statement subset: `Statement`,
`VarDeclaration`, the `Variable` expression arm and the
`Expression::variable` constructor are referenced by parser.rs and
interpreter.rs but their declarations are not among the sources; those
are modelled from the spec (§3 Data Model). -/

/-- `LiteralExpression` from ast.rs: boolean payload, or the token
carrying the null/string/number literal. -/
inductive LiteralExpression where
  | Boolean (b : Bool)
  | Null (t : Token)
  | String (t : Token)
  | Number (t : Token)
deriving DecidableEq, Repr

/-- `Expression` from ast.rs, plus the `Variable{name}` arm modelled
from the spec (§3): a strict tree of owned children. -/
inductive Expression where
  | Binary (left : Expression) (operator : Token) (right : Expression)
  | Grouping (expression : Expression)
  | Literal (e : LiteralExpression)
  | Unary (operator : Token) (right : Expression)
  | Variable (name : Token)
deriving DecidableEq, Repr

namespace Expression

/-- `Expression::binary`. -/
def binary (left : Expression) (operator : Token) (right : Expression) :
    Expression :=
  .Binary left operator right

/-- `Expression::grouping`. -/
def grouping (e : Expression) : Expression := .Grouping e

/-- `Expression::unary`. -/
def unary (operator : Token) (right : Expression) : Expression :=
  .Unary operator right

/-- Modelled from the spec: `Expression::variable`, the constructor of
the `Variable{name}` node used by `Parser::primary` (the Rust name
`variable` is a Lean keyword). -/
def variableExpr (name : Token) : Expression := .Variable name

/-- `Expression::literal`: classify a literal token; non-literal kinds
fall back to a null node (the source's marked base case). -/
def literal (token : Token) : Expression :=
  match token.token_type with
  | .TRUE => .Literal (.Boolean true)
  | .FALSE => .Literal (.Boolean false)
  | .NIL => .Literal (.Null token)
  | .STRING => .Literal (.String token)
  | .NUMBER => .Literal (.Number token)
  | _ => .Literal (.Null token)

end Expression

/-- Modelled from the spec (§3): `VarDeclaration{name, initializer}`. -/
structure VarDeclaration where
  name : Token
  initializer : Option Expression
deriving DecidableEq, Repr

/-- Modelled from the spec (§3): the `Statement` tagged variant
(expression statement, print statement, var declaration). -/
inductive Statement where
  | Expression (e : Expression)
  | Print (e : Expression)
  | VarDeclaration (d : VarDeclaration)
deriving DecidableEq, Repr

/-! ## Parser (parser.rs)

`&mut self` state is threaded explicitly; `Result<_, ParseError>` is
`Except ParseError`; a Rust panic (token index out of bounds, or the
`current - 1` underflow in `previous`) is the outer `none`.  All
recursion is bounded by a fuel argument; fuel exhaustion is also
`none` and never reached in the concrete runs below.  Diagnostic
message strings are side effects of the excluded reporting
collaborator and are not modelled. -/

/-- `ParseError` (a unit struct in parser.rs). -/
inductive ParseError where
  | mk
deriving DecidableEq, Repr

/-- Parser state: the token vector, the cursor, and the `had_error`
flag that the caller consults to suppress execution. -/
structure PState where
  tokens : List Token
  current : Nat
  had_error : Bool
deriving DecidableEq, Repr

namespace Parser

/-- `peek`: `self.tokens[self.current]`, panicking when out of range. -/
def peek (st : PState) : Option Token := st.tokens.get? st.current

/-- `previous`: `self.tokens[self.current - 1]`; `current = 0` is a
usize underflow panic. -/
def previous (st : PState) : Option Token :=
  if st.current = 0 then none else st.tokens.get? (st.current - 1)

/-- `is_at_end`: the current token is EOF. -/
def is_at_end (st : PState) : Option Bool :=
  (peek st).map fun t => t.token_type == .EOF

/-- `check`. -/
def check (t : TokenType) (st : PState) : Option Bool := do
  let e ← is_at_end st
  if e then pure false
  else do
    let p ← peek st
    pure (p.token_type == t)

/-- `advance`: step the cursor unless at end, then return `previous`. -/
def advance (st : PState) : Option (Token × PState) := do
  let e ← is_at_end st
  let st1 := if e then st else { st with current := st.current + 1 }
  let t ← previous st1
  pure (t, st1)

/-- `match_`: try each kind in order, consuming the first that checks. -/
def match_ : List TokenType → PState → Option (Bool × PState)
  | [], st => some (false, st)
  | t :: ts, st => do
      let c ← check t st
      if c then do
        let (_, st1) ← advance st
        pure (true, st1)
      else match_ ts st

/-- `consume`: advance past an expected kind, else report a parse
error at `peek()` and return `Err` with the cursor unmoved. -/
def consume (t : TokenType) (st : PState) :
    Option (Except ParseError Token × PState) := do
  let c ← check t st
  if c then do
    let (tok, st1) ← advance st
    pure (.ok tok, st1)
  else do
    let _offending ← peek st
    pure (.error .mk, st)

mutual

/-- `expression`: delegates to `equality`. -/
def expression : Nat → PState →
    Option (Except ParseError Expression × PState)
  | 0, _ => none
  | fuel + 1, st => equality fuel st

/-- `equality`: `comparison ( (BANG_EQUAL | EQUAL_EQUAL) comparison )*`. -/
def equality : Nat → PState →
    Option (Except ParseError Expression × PState)
  | 0, _ => none
  | fuel + 1, st => do
      let (r, st1) ← comparison fuel st
      match r with
      | .error e => pure (.error e, st1)
      | .ok ex => equalityLoop fuel ex st1

/-- The `while self.match_(...)` loop of `equality`. -/
def equalityLoop : Nat → Expression → PState →
    Option (Except ParseError Expression × PState)
  | 0, _, _ => none
  | fuel + 1, ex, st => do
      let (m, st1) ← match_ [.BANG_EQUAL, .EQUAL_EQUAL] st
      if m then do
        let op ← previous st1
        let (r, st2) ← comparison fuel st1
        match r with
        | .error e => pure (.error e, st2)
        | .ok right => equalityLoop fuel (Expression.binary ex op right) st2
      else pure (.ok ex, st1)

/-- `comparison`: one precedence level below `equality`. -/
def comparison : Nat → PState →
    Option (Except ParseError Expression × PState)
  | 0, _ => none
  | fuel + 1, st => do
      let (r, st1) ← term fuel st
      match r with
      | .error e => pure (.error e, st1)
      | .ok ex => comparisonLoop fuel ex st1

/-- The comparison-operator loop. -/
def comparisonLoop : Nat → Expression → PState →
    Option (Except ParseError Expression × PState)
  | 0, _, _ => none
  | fuel + 1, ex, st => do
      let (m, st1) ← match_ [.LESS, .LESS_EQUAL, .GREATER, .GREATER_EQUAL] st
      if m then do
        let op ← previous st1
        let (r, st2) ← term fuel st1
        match r with
        | .error e => pure (.error e, st2)
        | .ok right =>
            comparisonLoop fuel (Expression.binary ex op right) st2
      else pure (.ok ex, st1)

/-- `term`. -/
def term : Nat → PState →
    Option (Except ParseError Expression × PState)
  | 0, _ => none
  | fuel + 1, st => do
      let (r, st1) ← factor fuel st
      match r with
      | .error e => pure (.error e, st1)
      | .ok ex => termLoop fuel ex st1

/-- The additive-operator loop. -/
def termLoop : Nat → Expression → PState →
    Option (Except ParseError Expression × PState)
  | 0, _, _ => none
  | fuel + 1, ex, st => do
      let (m, st1) ← match_ [.MINUS, .PLUS] st
      if m then do
        let op ← previous st1
        let (r, st2) ← factor fuel st1
        match r with
        | .error e => pure (.error e, st2)
        | .ok right => termLoop fuel (Expression.binary ex op right) st2
      else pure (.ok ex, st1)

/-- `factor`. -/
def factor : Nat → PState →
    Option (Except ParseError Expression × PState)
  | 0, _ => none
  | fuel + 1, st => do
      let (r, st1) ← unary fuel st
      match r with
      | .error e => pure (.error e, st1)
      | .ok ex => factorLoop fuel ex st1

/-- The multiplicative-operator loop. -/
def factorLoop : Nat → Expression → PState →
    Option (Except ParseError Expression × PState)
  | 0, _, _ => none
  | fuel + 1, ex, st => do
      let (m, st1) ← match_ [.SLASH, .STAR] st
      if m then do
        let op ← previous st1
        let (r, st2) ← unary fuel st1
        match r with
        | .error e => pure (.error e, st2)
        | .ok right => factorLoop fuel (Expression.binary ex op right) st2
      else pure (.ok ex, st1)

/-- `unary`: after a MINUS or BANG the source parses the operand with
`self.primary()` (not a recursive `self.unary()`). -/
def unary : Nat → PState →
    Option (Except ParseError Expression × PState)
  | 0, _ => none
  | fuel + 1, st => do
      let (m, st1) ← match_ [.MINUS, .BANG] st
      if m then do
        let op ← previous st1
        let (r, st2) ← primary fuel st1
        match r with
        | .error e => pure (.error e, st2)
        | .ok right => pure (.ok (Expression.unary op right), st2)
      else primary fuel st1

/-- `primary`: literals, parenthesised grouping, or a variable
reference; otherwise a parse error at the current token. -/
def primary : Nat → PState →
    Option (Except ParseError Expression × PState)
  | 0, _ => none
  | fuel + 1, st => do
      let (m, st1) ← match_ [.FALSE, .TRUE, .NIL, .STRING, .NUMBER] st
      if m then do
        let t ← previous st1
        pure (.ok (Expression.literal t), st1)
      else do
        let (mp, st2) ← match_ [.LEFT_PAREN] st1
        if mp then do
          let (r, st3) ← expression fuel st2
          match r with
          | .error e => pure (.error e, st3)
          | .ok ex => do
              let (rc, st4) ← consume .RIGHT_PAREN st3
              match rc with
              | .error e => pure (.error e, st4)
              | .ok _ => pure (.ok (Expression.grouping ex), st4)
        else do
          let (mi, st5) ← match_ [.IDENTIFIER] st2
          if mi then do
            let t ← previous st5
            pure (.ok (Expression.variableExpr t), st5)
          else do
            let _offending ← peek st5
            pure (.error .mk, st5)

end

/-- `print_statement`: the semicolon `consume`'s `Result` is discarded
(no `?` in the source), so a missing semicolon does not propagate. -/
def print_statement (fuel : Nat) (st : PState) :
    Option (Except ParseError Statement × PState) := do
  let (r, st1) ← expression fuel st
  match r with
  | .error e => pure (.error e, st1)
  | .ok value => do
      let (_discarded, st2) ← consume .SEMICOLON st1
      pure (.ok (Statement.Print value), st2)

/-- `expression_statement`: the semicolon `consume`'s `Result` is
likewise discarded. -/
def expression_statement (fuel : Nat) (st : PState) :
    Option (Except ParseError Statement × PState) := do
  let (r, st1) ← expression fuel st
  match r with
  | .error e => pure (.error e, st1)
  | .ok value => do
      let (_discarded, st2) ← consume .SEMICOLON st1
      pure (.ok (Statement.Expression value), st2)

/-- `statement`. -/
def statement (fuel : Nat) (st : PState) :
    Option (Except ParseError Statement × PState) := do
  let (m, st1) ← match_ [.PRINT] st
  if m then print_statement fuel st1 else expression_statement fuel st1

/-- `var_declaration`: the name `consume` uses `?`, the semicolon
`consume`'s `Result` is discarded. -/
def var_declaration (fuel : Nat) (st : PState) :
    Option (Except ParseError Statement × PState) := do
  let (rn, st1) ← consume .IDENTIFIER st
  match rn with
  | .error e => pure (.error e, st1)
  | .ok name => do
      let (m, st2) ← match_ [.EQUAL] st1
      if m then do
        let (ri, st3) ← expression fuel st2
        match ri with
        | .error e => pure (.error e, st3)
        | .ok ini => do
            let (_discarded, st4) ← consume .SEMICOLON st3
            pure (.ok (Statement.VarDeclaration ⟨name, some ini⟩), st4)
      else do
        let (_discarded, st4) ← consume .SEMICOLON st2
        pure (.ok (Statement.VarDeclaration ⟨name, none⟩), st4)

/-- `declaration`. -/
def declaration (fuel : Nat) (st : PState) :
    Option (Except ParseError Statement × PState) := do
  let (m, st1) ← match_ [.VAR] st
  if m then var_declaration fuel st1 else statement fuel st1

/-- The token-discarding loop of `synchronize`. -/
def syncLoop : Nat → PState → Option PState
  | 0, _ => none
  | fuel + 1, st => do
      let e ← is_at_end st
      if e then pure st
      else do
        let pv ← previous st
        if pv.token_type == .SEMICOLON then pure st
        else do
          let p ← peek st
          match p.token_type with
          | .CLASS => pure st
          | .FUN => pure st
          | .VAR => pure st
          | .FOR => pure st
          | .IF => pure st
          | .WHILE => pure st
          | .PRINT => pure st
          | .RETURN => pure st
          | _ => do
              let (_, st1) ← advance st
              syncLoop fuel st1

/-- `synchronize`: advance once, then discard to a statement boundary. -/
def synchronize (fuel : Nat) (st : PState) : Option PState := do
  let (_, st1) ← advance st
  syncLoop fuel st1

/-- The `while` loop of `parse`: each failed declaration pushes `none`,
sets `had_error` and synchronizes. -/
def parseLoop : Nat → PState → List (Option Statement) →
    Option (List (Option Statement) × PState)
  | 0, _, _ => none
  | fuel + 1, st, acc => do
      let e ← is_at_end st
      if e then pure (acc, st)
      else do
        let (r, st1) ← declaration fuel st
        match r with
        | .ok s => parseLoop fuel st1 (acc ++ [some s])
        | .error _ => do
            let st2 ← synchronize fuel { st1 with had_error := true }
            parseLoop fuel st2 (acc ++ [none])

/-- `parse`: run the loop from a fresh parser over the token vector. -/
def parse (tokens : List Token) :
    Option (List (Option Statement) × PState) :=
  parseLoop (tokens.length * 16 + 64) ⟨tokens, 0, false⟩ []

end Parser

/-! ## Values and the interpreter (interpreter.rs, environment.rs) -/

/-- `InterpreterError` (a unit struct; the source has no error
taxonomy beyond it). -/
inductive InterpreterError where
  | mk
deriving DecidableEq, Repr

/-- `Value` from interpreter.rs. -/
inductive Value where
  | Boolean (b : Bool)
  | Null
  | String (s : List Char)
  | Number (n : F32)
deriving DecidableEq, Repr

namespace Value

/-- `is_truthy`: everything except `Null` and `false` is truthy. -/
def is_truthy : Value → Bool
  | .Null => false
  | .Boolean b => b
  | _ => true

/-- `negate` (unary minus). -/
def negate : Value → Except InterpreterError Value
  | .Number n => .ok (.Number n.neg)
  | _ => .error .mk

/-- `not` (unary bang). -/
def not (v : Value) : Except InterpreterError Value :=
  match v.is_truthy with
  | false => .ok (.Boolean true)
  | true => .ok (.Boolean false)

/-- `add`: numeric addition, string concatenation, else a runtime
error. -/
def add : Value → Value → Except InterpreterError Value
  | .Number n1, .Number n2 => .ok (.Number (n1.add n2))
  | .String s1, .String s2 => .ok (.String (s1 ++ s2))
  | _, _ => .error .mk

/-- `subtract`. -/
def subtract : Value → Value → Except InterpreterError Value
  | .Number n1, .Number n2 => .ok (.Number (n1.sub n2))
  | _, _ => .error .mk

/-- `divide`. -/
def divide : Value → Value → Except InterpreterError Value
  | .Number n1, .Number n2 => .ok (.Number (n1.div n2))
  | _, _ => .error .mk

/-- `multiply`. -/
def multiply : Value → Value → Except InterpreterError Value
  | .Number n1, .Number n2 => .ok (.Number (n1.mul n2))
  | _, _ => .error .mk

/-- `greater`. -/
def greater : Value → Value → Except InterpreterError Value
  | .Number n1, .Number n2 => .ok (.Boolean (n1.gt n2))
  | _, _ => .error .mk

/-- `greater_equal`. -/
def greater_equal : Value → Value → Except InterpreterError Value
  | .Number n1, .Number n2 => .ok (.Boolean (n1.ge n2))
  | _, _ => .error .mk

/-- `less`. -/
def less : Value → Value → Except InterpreterError Value
  | .Number n1, .Number n2 => .ok (.Boolean (n1.lt n2))
  | _, _ => .error .mk

/-- `less_equal`. -/
def less_equal : Value → Value → Except InterpreterError Value
  | .Number n1, .Number n2 => .ok (.Boolean (n1.le n2))
  | _, _ => .error .mk

/-- `is_equal`: same-variant comparison by value (`f32` equality for
numbers), `Null == Null` true, cross-variant false. -/
def is_equal : Value → Value → Bool
  | .Number n1, .Number n2 => F32.beq n1 n2
  | .Boolean b1, .Boolean b2 => b1 == b2
  | .String s1, .String s2 => s1 == s2
  | .Null, .Null => true
  | _, _ => false

/-- `equals`. -/
def equals (a b : Value) : Except InterpreterError Value :=
  .ok (.Boolean (is_equal a b))

/-- `not_equals`. -/
def not_equals (a b : Value) : Except InterpreterError Value :=
  .ok (.Boolean (!is_equal a b))

/-- `stringify`: a number whose `fract()` equals `0.0` prints via the
saturating `as i32` cast's decimal form, otherwise via the float
display; booleans print `true`/`false`, strings verbatim, null `nil`. -/
def stringify : Value → List Char
  | .Number n =>
      if F32.beq n.fract (.finite 0) then (Int.repr n.asI32).data
      else F32.display n
  | .Boolean b => (if b then "true" else "false").data
  | .String s => s
  | .Null => "nil".data

end Value

/-- `Environment` from environment.rs: the `HashMap<String, Value>` is
modelled as an association list with the most recent binding first
(`insert` = cons), observably the same single flat name-to-value
mapping. -/
structure Environment where
  values : List (List Char × Value)
deriving DecidableEq, Repr

namespace Environment

/-- `Environment::new`. -/
def new : Environment := ⟨[]⟩

/-- `define`: unconditional insert-or-overwrite, no error case. -/
def define (env : Environment) (name : List Char) (value : Value) :
    Environment :=
  ⟨(name, value) :: env.values⟩

/-- `get`: a copy of the bound value, or an `InterpreterError` (the
"Undefined variable" report is a side effect of the excluded output
collaborator). -/
def get (env : Environment) (token : Token) :
    Except InterpreterError Value :=
  match env.values.lookup token.lexeme with
  | some v => .ok v
  | none => .error .mk

end Environment

namespace Interpreter

/-- `Interpreter::literal`: literal nodes to values; a string/number
token without its payload is an error. -/
def literal : LiteralExpression → Except InterpreterError Value
  | .Boolean b => .ok (.Boolean b)
  | .Null _ => .ok .Null
  | .String t =>
      match t.literal with
      | some (.STRING s) => .ok (.String s)
      | _ => .error .mk
  | .Number t =>
      match t.literal with
      | some (.NUMBER n) => .ok (.Number n)
      | _ => .error .mk

/-- `Interpreter::evaluate` (with the `binary`, `grouping`, `unary`
and `variable` method bodies inlined at their single call sites): the
environment is read-only (`&self` in the source). -/
def evaluate (env : Environment) : Expression → Except InterpreterError Value
  | .Binary left op right => do
      let l ← evaluate env left
      let r ← evaluate env right
      match op.token_type with
      | .PLUS => l.add r
      | .MINUS => l.subtract r
      | .SLASH => l.divide r
      | .STAR => l.multiply r
      | .GREATER => l.greater r
      | .GREATER_EQUAL => l.greater_equal r
      | .LESS => l.less r
      | .LESS_EQUAL => l.less_equal r
      | .BANG_EQUAL => l.not_equals r
      | .EQUAL_EQUAL => l.equals r
      | _ => .error .mk
  | .Grouping e => evaluate env e
  | .Unary op right => do
      let r ← evaluate env right
      match op.token_type with
      | .MINUS => r.negate
      | .BANG => r.not
      | _ => .error .mk
  | .Literal l => literal l
  | .Variable name => env.get name

/-- `Interpreter::statement`, with the mutable interpreter state
(environment) and the print side channel threaded explicitly: the
result triple is (statement result, environment after, output after). -/
def statement (env : Environment) (out : List (List Char)) :
    Statement → Except InterpreterError Value × Environment × List (List Char)
  | .Expression e => (evaluate env e, env, out)
  | .Print e =>
      match evaluate env e with
      | .ok v => (.ok v, env, out ++ [v.stringify])
      | .error er => (.error er, env, out)
  | .VarDeclaration d =>
      match d.initializer with
      | none => (.ok .Null, env.define d.name.lexeme .Null, out)
      | some ini =>
          match evaluate env ini with
          | .ok v => (.ok v, env.define d.name.lexeme v, out)
          | .error er => (.error er, env, out)

/-- `Interpreter::execute`: `self.statement(statement).unwrap()` — an
`Err` from the statement aborts the whole process (`none` models the
panic). -/
def execute (env : Environment) (out : List (List Char)) (s : Statement) :
    Option (Value × Environment × List (List Char)) :=
  match statement env out s with
  | (.ok v, env1, out1) => some (v, env1, out1)
  | (.error _, _, _) => none

/-- `Interpreter::interpret`: execute each statement in order; a panic
stops everything. -/
def interpret (env : Environment) (out : List (List Char)) :
    List Statement → Option (Environment × List (List Char))
  | [] => some (env, out)
  | s :: rest =>
      match execute env out s with
      | none => none
      | some (_, env1, out1) => interpret env1 out1 rest

end Interpreter

/-! ## Spec-side classifiers and concrete fixture inputs -/

namespace Value

/-- Spec-side classifier: is the value a `Number`? -/
def isNumber : Value → Bool
  | .Number _ => true
  | _ => false

/-- Spec-side classifier: is the value a `String`? -/
def isString : Value → Bool
  | .String _ => true
  | _ => false

/-- Spec-side classifier: is the value the `Number` NaN? -/
def isNanNumber : Value → Bool
  | .Number .nan => true
  | _ => false

/-- Spec-side classifier: do two values carry the same variant tag? -/
def sameVariant : Value → Value → Bool
  | .Number _, .Number _ => true
  | .Boolean _, .Boolean _ => true
  | .String _, .String _ => true
  | .Null, .Null => true
  | _, _ => false

end Value

/-- Fixture: a payload-free token on line 1. -/
def tok (t : TokenType) (lex : List Char) : Token := ⟨t, lex, none, 1⟩

/-- Fixture: a number token on line 1. -/
def numTok (lex : List Char) (q : ℚ) : Token :=
  ⟨.NUMBER, lex, some (.NUMBER (.finite q)), 1⟩

/-- Fixture: a string token on line 1. -/
def strTok (lex s : List Char) : Token :=
  ⟨.STRING, lex, some (.STRING s), 1⟩

/-- Fixture: the AST of the expression `1 + "a"`. -/
def onePlusStrA : Expression :=
  .Binary (.Literal (.Number (numTok ['1'] 1))) (tok .PLUS ['+'])
    (.Literal (.String (strTok ['\x22', 'a', '\x22'] ['a'])))

/-- Fixture: the expression statement `1 + "a";`. -/
def stmtOnePlusStrA : Statement := .Expression onePlusStrA

/-- Fixture: the scan of `print 1` — a print statement missing its
semicolon. -/
def printNoSemiToks : List Token :=
  [tok .PRINT "print".data, numTok ['1'] 1, tok .EOF []]

/-- Fixture: the scan of `!!x`. -/
def bangBangToks : List Token :=
  [tok .BANG ['!'], tok .BANG ['!'], tok .IDENTIFIER ['x'], tok .EOF []]

/-- Fixture: the scan of `--5`. -/
def minusMinusToks : List Token :=
  [tok .MINUS ['-'], tok .MINUS ['-'], numTok ['5'] 5, tok .EOF []]

/-- Fixture: the identifier token `x`. -/
def xTok : Token := tok .IDENTIFIER ['x']

/-- Fixture: the statement `var x = 1;`. -/
def varX1 : Statement :=
  .VarDeclaration ⟨xTok, some (.Literal (.Number (numTok ['1'] 1)))⟩

/-- Fixture: the statement `var x = 2;`. -/
def varX2 : Statement :=
  .VarDeclaration ⟨xTok, some (.Literal (.Number (numTok ['2'] 2)))⟩

/-- Fixture: the statement `print x;`. -/
def printX : Statement := .Print (.Variable xTok)

/-- Fixture: the source text `1+2`. -/
def srcOnePlusTwo : List Char := "1+2".data

/-- Fixture: the token sequence the scanner produces for `1+2`. -/
def toksOnePlusTwo : List Token :=
  [numTok ['1'] 1, tok .PLUS ['+'], numTok ['2'] 2, ⟨.EOF, [], none, 1⟩]

/-- The C6 token invariant: not an end-of-input token, and the lexeme
is a verbatim contiguous substring of the source. -/
def TokOk (src : List Char) (tk : Token) : Prop :=
  tk.token_type ≠ TokenType.EOF ∧ ∃ u v, u ++ tk.lexeme ++ v = src

/-! ## Helper lemmas -/

/-- A successful `byteDrop` returns a suffix of its input. -/
theorem byteDrop_suffix (s : List Char) :
    ∀ a t, byteDrop s a = some t → ∃ u, u ++ t = s := by
  induction s with
  | nil =>
      intro a t h
      cases a with
      | zero => exact ⟨[], by simpa [byteDrop] using h⟩
      | succ a => simp [byteDrop] at h
  | cons c s ih =>
      intro a t h
      cases a with
      | zero =>
          exact ⟨[], by simpa [byteDrop] using h.symm⟩
      | succ a =>
          rw [byteDrop] at h
          split at h
          · obtain ⟨u, hu⟩ := ih _ _ h
            exact ⟨c :: u, by simp [hu]⟩
          · exact absurd h (by simp)

/-- A successful `byteTake` returns a prefix of its input. -/
theorem byteTake_prefix (s : List Char) :
    ∀ n t, byteTake s n = some t → ∃ u, t ++ u = s := by
  induction s with
  | nil =>
      intro n t h
      cases n with
      | zero => exact ⟨[], by simpa [byteTake] using h.symm⟩
      | succ n => simp [byteTake] at h
  | cons c s ih =>
      intro n t h
      cases n with
      | zero =>
          refine ⟨c :: s, ?_⟩
          simp [byteTake] at h
          simp [← h]
      | succ n =>
          rw [byteTake] at h
          split at h
          · rcases Option.map_eq_some'.mp h with ⟨t', ht', rfl⟩
            obtain ⟨u, hu⟩ := ih _ _ ht'
            exact ⟨u, by simp [hu]⟩
          · exact absurd h (by simp)

/-- A successful `byteSlice` returns a contiguous substring. -/
theorem byteSlice_substring {s x : List Char} {a b : Nat}
    (h : byteSlice s a b = some x) : ∃ u v, u ++ x ++ v = s := by
  rw [byteSlice] at h
  split at h
  · rcases Option.bind_eq_some.mp h with ⟨t, hdrop, htake⟩
    obtain ⟨u, hu⟩ := byteDrop_suffix s a t hdrop
    obtain ⟨v, hv⟩ := byteTake_prefix t _ x htake
    exact ⟨u, v, by rw [← hu, ← hv]; simp⟩
  · exact absurd h (by simp)

/-- A successful association-list lookup yields one of the stored
values. -/
theorem lookup_mem_values {α β : Type} [BEq α] {a : α} {b : β} :
    ∀ l : List (α × β), List.lookup a l = some b → b ∈ l.map Prod.snd := by
  intro l
  induction l with
  | nil => intro h; simp [List.lookup] at h
  | cons p l ih =>
      intro h
      rw [List.lookup] at h
      split at h
      · simp at h
        simp [h]
      · simpa using Or.inr (ih h)

/-- An association-list lookup fails exactly when the key is absent. -/
theorem lookup_eq_none_iff {α β : Type} [BEq α] [LawfulBEq α] {a : α} :
    ∀ l : List (α × β), List.lookup a l = none ↔ a ∉ l.map Prod.fst := by
  intro l
  induction l with
  | nil => simp [List.lookup]
  | cons p l ih =>
      rw [List.lookup]
      split
      · next heq =>
          simp only [beq_iff_eq] at heq
          simp [heq]
      · next hne =>
          rw [beq_eq_false_iff_ne] at hne
          simp [ih, hne]

/-- On an integral rational, truncation toward zero is the numerator. -/
theorem ratTrunc_of_den_one {q : ℚ} (h : q.den = 1) :
    F32.ratTrunc q = q.num := by
  rw [F32.ratTrunc, h]
  exact_mod_cast Int.tdiv_one q.num

/-- `fract == 0.0` holds exactly for integral finite rationals. -/
theorem fract_beq_zero_iff (q : ℚ) :
    F32.beq (F32.fract (.finite q)) (.finite 0) = true ↔ q.den = 1 := by
  rw [F32.fract, F32.beq, beq_iff_eq, sub_eq_zero]
  constructor
  · intro h
    rw [h]
    exact Rat.den_intCast _
  · intro h
    rw [ratTrunc_of_den_one h]
    exact ((Rat.den_eq_one_iff q).mp h).symm

namespace Scanner

/-- `liftO` succeeds exactly on `some`. -/
theorem liftO_ok {o : Option SState} {st' : SState} :
    liftO o = .ok st' ↔ o = some st' := by
  cases o <;> simp [liftO]

/-- `advance` never touches the token list. -/
theorem advance_tokens {src : List Char} {st : SState} {c : Char}
    {st' : SState} (h : advance src st = some (c, st')) :
    st'.tokens = st.tokens := by
  rw [advance] at h
  split at h
  · cases h; rfl
  · cases h

/-- `find` never touches the token list. -/
theorem find_tokens (src : List Char) (e : Char) (st : SState) :
    ((find src e st).2).tokens = st.tokens := by
  rw [find]
  split <;> [rfl; (split <;> rfl)]

/-- A successful `add_literal` appends exactly one token of the given
kind whose lexeme is a substring of the source. -/
theorem add_literal_spec {src : List Char} {t : TokenType}
    {lit : Option Literal} {st st' : SState}
    (h : add_literal src t lit st = some st') :
    ∃ text, st'.tokens = st.tokens ++ [⟨t, text, lit, st.line⟩] ∧
      ∃ u v, u ++ text ++ v = src := by
  rw [add_literal] at h
  rcases Option.map_eq_some'.mp h with ⟨text, hslice, rfl⟩
  exact ⟨text, rfl, byteSlice_substring hslice⟩

/-- A lifted non-EOF token emission satisfies the C6 invariant. -/
theorem simple_emit {src : List Char} {t : TokenType}
    {lit : Option Literal} {st st' : SState} (ht : t ≠ TokenType.EOF)
    (h : liftO (add_literal src t lit st) = .ok st') :
    ∃ new, st'.tokens = st.tokens ++ new ∧ ∀ tk ∈ new, TokOk src tk := by
  rcases add_literal_spec (liftO_ok.mp h) with ⟨text, htoks, hsub⟩
  refine ⟨_, htoks, ?_⟩
  intro tk hm
  rw [List.mem_singleton] at hm
  subst hm
  exact ⟨ht, hsub⟩

/-- The comment-discarding loop never touches the token list. -/
theorem commentLoop_tokens {src : List Char} :
    ∀ fuel (st st' : SState), commentLoop src fuel st = .ok st' →
      st'.tokens = st.tokens := by
  intro fuel
  induction fuel with
  | zero => intro st st' h; simp [commentLoop] at h
  | succ n ih =>
      intro st st' h
      rw [commentLoop] at h
      split at h
      · cases h
      · split at h
        · split at h
          · cases h
          · next hadv => rw [ih _ _ h]; exact advance_tokens hadv
        · cases h; rfl

/-- The string-body loop never touches the token list. -/
theorem stringLoop_tokens {src : List Char} :
    ∀ fuel (st st' : SState), stringLoop src fuel st = .ok st' →
      st'.tokens = st.tokens := by
  intro fuel
  induction fuel with
  | zero => intro st st' h; simp [stringLoop] at h
  | succ n ih =>
      intro st st' h
      rw [stringLoop] at h
      split at h
      · cases h
      · next c _ =>
          split at h
          · rcases hadv : advance src
                (if c == '\n' then { st with line := st.line + 1 } else st)
              with _ | ⟨c2, st2⟩
            · rw [hadv] at h; cases h
            · rw [hadv] at h
              rw [ih _ _ h, advance_tokens hadv]
              split <;> rfl
          · cases h; rfl

/-- The digit-consuming loop never touches the token list. -/
theorem digitLoop_tokens {src : List Char} :
    ∀ fuel (st st' : SState), digitLoop src fuel st = .ok st' →
      st'.tokens = st.tokens := by
  intro fuel
  induction fuel with
  | zero => intro st st' h; simp [digitLoop] at h
  | succ n ih =>
      intro st st' h
      rw [digitLoop] at h
      split at h
      · cases h
      · split at h
        · split at h
          · cases h
          · next hadv => rw [ih _ _ h]; exact advance_tokens hadv
        · cases h; rfl

/-- The identifier loop never touches the token list. -/
theorem identLoop_tokens {src : List Char} :
    ∀ fuel (st st' : SState), identLoop src fuel st = .ok st' →
      st'.tokens = st.tokens := by
  intro fuel
  induction fuel with
  | zero => intro st st' h; simp [identLoop] at h
  | succ n ih =>
      intro st st' h
      rw [identLoop] at h
      split at h
      · cases h
      · split at h
        · split at h
          · cases h
          · next hadv => rw [ih _ _ h]; exact advance_tokens hadv
        · cases h; rfl

/-- An emission through `add_token` satisfies the C6 invariant. -/
theorem simple_emit_tok {src : List Char} {t : TokenType}
    {st st' : SState} (ht : t ≠ TokenType.EOF)
    (h : liftO (add_token src t st) = .ok st') :
    ∃ new, st'.tokens = st.tokens ++ new ∧ ∀ tk ∈ new, TokOk src tk :=
  simple_emit ht (by rwa [add_token] at h)

/-- The dot-lookahead step never touches the token list. -/
theorem numberDot_tokens {src : List Char} {st1 st2 : SState}
    (h : numberDot src st1 = .ok st2) : st2.tokens = st1.tokens := by
  rw [numberDot] at h
  split at h
  · cases h
  · split at h
    · split at h
      · cases h
      · split at h
        · split at h
          · cases h
          · next hadv => cases h; exact advance_tokens hadv
        · cases h; rfl
    · cases h; rfl

/-- `string()` either emits nothing (unterminated) or exactly one
STRING token obeying the C6 invariant. -/
theorem string_spec {src : List Char} {fuel : Nat} {st st' : SState}
    (h : string src fuel st = .ok st') :
    ∃ new, st'.tokens = st.tokens ++ new ∧ ∀ tk ∈ new, TokOk src tk := by
  rw [string] at h
  split at h
  · cases h
  · cases h
  · next st1 hloop =>
      split at h
      · cases h
        exact ⟨[], by simp [stringLoop_tokens _ _ _ hloop], by simp⟩
      · split at h
        · cases h
        · next c2 st2 hadv =>
            split at h
            · cases h
            · rcases simple_emit (by decide) h with ⟨new, hts, hok⟩
              rw [advance_tokens hadv, stringLoop_tokens _ _ _ hloop] at hts
              exact ⟨new, hts, hok⟩

/-- `number()` emits exactly one NUMBER token obeying the C6
invariant. -/
theorem number_spec {src : List Char} {fuel : Nat} {st st' : SState}
    (h : number src fuel st = .ok st') :
    ∃ new, st'.tokens = st.tokens ++ new ∧ ∀ tk ∈ new, TokOk src tk := by
  rw [number] at h
  split at h
  · cases h
  · cases h
  · next st1 h1 =>
      split at h
      · cases h
      · cases h
      · next st2 h2 =>
          split at h
          · cases h
          · cases h
          · next st3 h3 =>
              split at h
              · cases h
              · rcases simple_emit (by decide) h with ⟨new, hts, hok⟩
                rw [digitLoop_tokens _ _ _ h3, numberDot_tokens h2,
                  digitLoop_tokens _ _ _ h1] at hts
                exact ⟨new, hts, hok⟩

/-- A keyword-table hit is one of the sixteen keyword kinds, never
EOF; the miss fallback is IDENTIFIER. -/
theorem keyword_or_ident_ne_eof (text : List Char) :
    (match keywords text with
     | none => TokenType.IDENTIFIER
     | some t => t) ≠ TokenType.EOF := by
  cases hk : keywords text with
  | none => decide
  | some t =>
      have hmem := lookup_mem_values _ hk
      intro heq
      subst heq
      revert hmem
      decide

/-- `identifier()` emits exactly one keyword-or-identifier token
obeying the C6 invariant. -/
theorem identifier_spec {src : List Char} {fuel : Nat} {st st' : SState}
    (h : identifier src fuel st = .ok st') :
    ∃ new, st'.tokens = st.tokens ++ new ∧ ∀ tk ∈ new, TokOk src tk := by
  rw [identifier] at h
  split at h
  · cases h
  · cases h
  · next st1 h1 =>
      split at h
      · cases h
      · next text hsl =>
          rcases simple_emit_tok (keyword_or_ident_ne_eof text) h
            with ⟨new, hts, hok⟩
          rw [identLoop_tokens _ _ _ h1] at hts
          exact ⟨new, hts, hok⟩

set_option maxHeartbeats 3200000 in
/-- Every token `scan_token` emits obeys the C6 invariant. -/
theorem scan_token_spec {src : List Char} {fuel : Nat} {st st' : SState}
    (h : scan_token src fuel st = .ok st') :
    ∃ new, st'.tokens = st.tokens ++ new ∧ ∀ tk ∈ new, TokOk src tk := by
  rw [scan_token] at h
  split at h
  · cases h
  · next c st1 hadv =>
      rw [← advance_tokens hadv]
      by_cases hc0 : (c == '(') = true
      · rw [if_pos hc0] at h
        exact simple_emit_tok (by decide) h
      · rw [if_neg hc0] at h
        by_cases hc1 : (c == ')') = true
        · rw [if_pos hc1] at h
          exact simple_emit_tok (by decide) h
        · rw [if_neg hc1] at h
          by_cases hc2 : (c == '\x7b') = true
          · rw [if_pos hc2] at h
            exact simple_emit_tok (by decide) h
          · rw [if_neg hc2] at h
            by_cases hc3 : (c == '\x7d') = true
            · rw [if_pos hc3] at h
              exact simple_emit_tok (by decide) h
            · rw [if_neg hc3] at h
              by_cases hc4 : (c == ',') = true
              · rw [if_pos hc4] at h
                exact simple_emit_tok (by decide) h
              · rw [if_neg hc4] at h
                by_cases hc5 : (c == '.') = true
                · rw [if_pos hc5] at h
                  exact simple_emit_tok (by decide) h
                · rw [if_neg hc5] at h
                  by_cases hc6 : (c == '-') = true
                  · rw [if_pos hc6] at h
                    exact simple_emit_tok (by decide) h
                  · rw [if_neg hc6] at h
                    by_cases hc7 : (c == '+') = true
                    · rw [if_pos hc7] at h
                      exact simple_emit_tok (by decide) h
                    · rw [if_neg hc7] at h
                      by_cases hc8 : (c == ';') = true
                      · rw [if_pos hc8] at h
                        exact simple_emit_tok (by decide) h
                      · rw [if_neg hc8] at h
                        by_cases hc9 : (c == '*') = true
                        · rw [if_pos hc9] at h
                          exact simple_emit_tok (by decide) h
                        · rw [if_neg hc9] at h
                          by_cases hc10 : (c == '!') = true
                          · rw [if_pos hc10] at h
                            split at h
                            next found st1x hfind =>
                              have hft : st1x.tokens = st1.tokens := by
                                have hx := find_tokens src '=' st1
                                rw [hfind] at hx
                                exact hx
                              rw [← hft]
                              exact simple_emit_tok (by cases found <;> decide) h
                          · rw [if_neg hc10] at h
                            by_cases hc11 : (c == '=') = true
                            · rw [if_pos hc11] at h
                              split at h
                              next found st1x hfind =>
                                have hft : st1x.tokens = st1.tokens := by
                                  have hx := find_tokens src '=' st1
                                  rw [hfind] at hx
                                  exact hx
                                rw [← hft]
                                exact simple_emit_tok (by cases found <;> decide) h
                            · rw [if_neg hc11] at h
                              by_cases hc12 : (c == '>') = true
                              · rw [if_pos hc12] at h
                                split at h
                                next found st1x hfind =>
                                  have hft : st1x.tokens = st1.tokens := by
                                    have hx := find_tokens src '=' st1
                                    rw [hfind] at hx
                                    exact hx
                                  rw [← hft]
                                  exact simple_emit_tok (by cases found <;> decide) h
                              · rw [if_neg hc12] at h
                                by_cases hc13 : (c == '<') = true
                                · rw [if_pos hc13] at h
                                  split at h
                                  next found st1x hfind =>
                                    have hft : st1x.tokens = st1.tokens := by
                                      have hx := find_tokens src '=' st1
                                      rw [hfind] at hx
                                      exact hx
                                    rw [← hft]
                                    exact simple_emit_tok (by cases found <;> decide) h
                                · rw [if_neg hc13] at h
                                  by_cases hc14 : (c == '/') = true
                                  · rw [if_pos hc14] at h
                                    split at h
                                    next found st1x hfind =>
                                      have hft : st1x.tokens = st1.tokens := by
                                        have hx := find_tokens src '/' st1
                                        rw [hfind] at hx
                                        exact hx
                                      rw [← hft]
                                      split at h
                                      · exact ⟨[], by rw [commentLoop_tokens _ _ _ h]; simp, by simp⟩
                                      · exact simple_emit_tok (by decide) h
                                  · rw [if_neg hc14] at h
                                    by_cases hc15 : (c == ' ') = true
                                    · rw [if_pos hc15] at h
                                      cases h; exact ⟨[], by simp, by simp⟩
                                    · rw [if_neg hc15] at h
                                      by_cases hc16 : (c == '\x0d') = true
                                      · rw [if_pos hc16] at h
                                        cases h; exact ⟨[], by simp, by simp⟩
                                      · rw [if_neg hc16] at h
                                        by_cases hc17 : (c == '\t') = true
                                        · rw [if_pos hc17] at h
                                          cases h; exact ⟨[], by simp, by simp⟩
                                        · rw [if_neg hc17] at h
                                          by_cases hc18 : (c == '\n') = true
                                          · rw [if_pos hc18] at h
                                            cases h; exact ⟨[], by simp, by simp⟩
                                          · rw [if_neg hc18] at h
                                            by_cases hc19 : (c == '\x22') = true
                                            · rw [if_pos hc19] at h
                                              exact string_spec h
                                            · rw [if_neg hc19] at h
                                              by_cases hc20 : (is_digit c) = true
                                              · rw [if_pos hc20] at h
                                                exact number_spec h
                                              · rw [if_neg hc20] at h
                                                by_cases hc21 : (is_alpha c) = true
                                                · rw [if_pos hc21] at h
                                                  exact identifier_spec h
                                                · rw [if_neg hc21] at h
                                                  cases h; exact ⟨[], by simp, by simp⟩

/-- Every token the scanner's driving loop accumulates obeys the C6
invariant. -/
theorem scanLoop_spec {src : List Char} :
    ∀ fuel (st st' : SState), scanLoop src fuel st = .ok st' →
      ∃ new, st'.tokens = st.tokens ++ new ∧ ∀ tk ∈ new, TokOk src tk := by
  intro fuel
  induction fuel with
  | zero => intro st st' h; simp [scanLoop] at h
  | succ n ih =>
      intro st st' h
      rw [scanLoop] at h
      split at h
      · cases h; exact ⟨[], by simp, by simp⟩
      · split at h
        · next st1 hstep =>
            rcases ih _ _ h with ⟨new2, hts2, hok2⟩
            rcases scan_token_spec hstep with ⟨new1, hts1, hok1⟩
            refine ⟨new1 ++ new2, ?_, ?_⟩
            · rw [hts2, hts1]
              simp
            · intro tk hm
              rcases List.mem_append.mp hm with hm | hm
              · exact hok1 tk hm
              · exact hok2 tk hm
        · cases h
        · cases h

end Scanner

/-- `==` is symmetric whenever it agrees with propositional equality. -/
theorem beq_comm_of_lawful {α : Type} [BEq α] [LawfulBEq α] (a b : α) :
    (a == b) = (b == a) := by
  by_cases h : a = b
  · subst h; rfl
  · rw [beq_eq_false_iff_ne.mpr h, beq_eq_false_iff_ne.mpr (Ne.symm h)]

/-- Rust `f32` equality is symmetric (NaN included). -/
theorem F32.beq_comm (a b : F32) : F32.beq a b = F32.beq b a := by
  cases a <;> cases b <;> try rfl
  case inf.inf x y => cases x <;> cases y <;> rfl
  case finite.finite p q => exact beq_comm_of_lawful p q

/-- The saturating-cast arm of `stringify` on an in-range integral
number: the exact integer decimal representation. -/
theorem stringify_int_in_range {q : ℚ} (h1 : q.den = 1)
    (h2 : -(2 ^ 31) ≤ q.num) (h3 : q.num ≤ 2 ^ 31 - 1) :
    Value.stringify (.Number (.finite q)) = (Int.repr q.num).data := by
  have ht := ratTrunc_of_den_one h1
  have hA : F32.asI32 (.finite q) = q.num := by
    simp only [F32.asI32, ht]
    rw [if_neg (by omega), if_neg (by omega)]
  simp [Value.stringify, (fract_beq_zero_iff q).mpr h1, hA]

/-- The saturating-cast arm of `stringify` above the `i32` range. -/
theorem stringify_int_saturate_hi {q : ℚ} (h1 : q.den = 1)
    (h2 : 2 ^ 31 - 1 < q.num) :
    Value.stringify (.Number (.finite q)) =
      (Int.repr (2 ^ 31 - 1)).data := by
  have ht := ratTrunc_of_den_one h1
  have hA : F32.asI32 (.finite q) = 2 ^ 31 - 1 := by
    simp only [F32.asI32, ht]
    rw [if_neg (by omega), if_pos (by omega)]
  simp [Value.stringify, (fract_beq_zero_iff q).mpr h1, hA]

/-- The saturating-cast arm of `stringify` below the `i32` range. -/
theorem stringify_int_saturate_lo {q : ℚ} (h1 : q.den = 1)
    (h2 : q.num < -(2 ^ 31)) :
    Value.stringify (.Number (.finite q)) = (Int.repr (-(2 ^ 31))).data := by
  have ht := ratTrunc_of_den_one h1
  have hA : F32.asI32 (.finite q) = -(2 ^ 31) := by
    simp only [F32.asI32, ht]
    rw [if_pos (by omega)]
  simp [Value.stringify, (fract_beq_zero_iff q).mpr h1, hA]

/-- The float-display arm of `stringify` on non-integral numbers. -/
theorem stringify_nonintegral {q : ℚ} (h1 : q.den ≠ 1) :
    Value.stringify (.Number (.finite q)) = F32.display (.finite q) := by
  have hb : F32.beq (F32.fract (.finite q)) (.finite 0) = false :=
    eq_false_of_ne_true fun hc => h1 ((fract_beq_zero_iff q).mp hc)
  simp [Value.stringify, hb]

/-! ## Claims -/

/-- C1: evaluating the expression statement `1 + "a"` produces a
runtime error, but `Interpreter::execute` unwraps the `Err`, so the
whole run aborts with a panic instead of surfacing the error as a
result — the claim's no-crash property fails on this input. -/
theorem C1_runtime_error_panics :
    (Interpreter.statement Environment.new [] stmtOnePlusStrA).1 =
      Except.error InterpreterError.mk ∧
    Interpreter.execute Environment.new [] stmtOnePlusStrA = none := by
  constructor <;> rfl

/-- C2: on the token sequence of `print 1` (missing semicolon) the
parser reports the error but discards the `consume` result, so
`parse` returns a parsed print statement with `had_error = false` —
the program with a parse error would be executed, refuting the claim. -/
theorem C2_missing_semicolon_not_flagged :
    Parser.parse printNoSemiToks =
      some ([some (Statement.Print (Expression.Literal
          (.Number (numTok ['1'] 1))))],
        ⟨printNoSemiToks, 2, false⟩) := by
  rfl

/-- C3: the parser's `unary` rule parses its operand with `primary`,
not recursively with `unary`, so the chains `!!x` and `--5` are
rejected with a parse error instead of producing nested Unary nodes. -/
theorem C3_unary_chain_rejected :
    Parser.expression 64 ⟨bangBangToks, 0, false⟩ =
      some (.error .mk, ⟨bangBangToks, 1, false⟩) ∧
    Parser.expression 64 ⟨minusMinusToks, 0, false⟩ =
      some (.error .mk, ⟨minusMinusToks, 1, false⟩) := by
  constructor <;> rfl

/-- C4 counterexample: `is_equal` is not reflexive on the Number
variant — NaN (producible by the interpreter's own `0/0`) compares
unequal to itself. -/
theorem C4_nan_counterexample :
    Value.is_equal (.Number .nan) (.Number .nan) = false ∧
    Value.divide (.Number (.finite 0)) (.Number (.finite 0)) =
      .ok (.Number .nan) := by
  constructor
  · rfl
  · simp [Value.divide, F32.div]

/-- C4 (amended): runtime equality is symmetric on the full Value
domain and reflexive for every value except the Number NaN;
`Null == Null` is true; cross-variant comparisons are false; the
equality operator never produces an error. -/
theorem C4_equality_spec :
    (∀ v w : Value, Value.is_equal v w = Value.is_equal w v) ∧
    (∀ v : Value, Value.isNanNumber v = false →
      Value.is_equal v v = true) ∧
    (Value.is_equal .Null .Null = true) ∧
    (∀ v w : Value, Value.sameVariant v w = false →
      Value.is_equal v w = false) ∧
    (∀ v w : Value, Value.equals v w =
      .ok (.Boolean (Value.is_equal v w))) := by
  refine ⟨?_, ?_, rfl, ?_, fun v w => rfl⟩
  · intro v w
    cases v <;> cases w <;>
      first
        | rfl
        | exact beq_comm_of_lawful _ _
        | exact F32.beq_comm _ _
  · intro v h
    cases v with
    | Boolean b => simp [Value.is_equal]
    | Null => rfl
    | String s => simp [Value.is_equal]
    | Number n =>
        cases n with
        | nan => simp [Value.isNanNumber] at h
        | inf a => simp [Value.is_equal, F32.beq]
        | finite q => simp [Value.is_equal, F32.beq]
  · intro v w hsv
    cases v <;> cases w <;> simp_all [Value.sameVariant, Value.is_equal]

/-- C4 witness: the amended equality properties at concrete inputs. -/
theorem C4_equality_witness :
    Value.is_equal (.Number (.finite 1)) (.Number (.finite 1)) = true ∧
    Value.is_equal (.Number (.finite 1)) (.String ['1']) = false :=
  ⟨C4_equality_spec.2.1 _ (by decide),
   C4_equality_spec.2.2.2.1 _ _ (by decide)⟩

/-- C5: the scanner compares a character cursor against the byte
length of the source, so on the two-byte character é the loop runs
past the characters and `chars().nth(current).unwrap()` panics —
`scan_tokens` does not run to completion on all UTF-8 input. -/
theorem C5_scanner_panics_on_multibyte :
    Scanner.scan_tokens ['é'] = .panicked := by
  rfl

/-- C6: whenever `scan_tokens` returns a token sequence, that sequence
is the accumulated tokens followed by exactly one EOF token with empty
lexeme carrying the final line number, no accumulated token is an EOF
token, and every accumulated token's lexeme is a verbatim contiguous
substring of the source. -/
theorem C6_scan_tokens_shape :
    ∀ src ts, Scanner.scan_tokens src = .toks ts →
      ∃ st', Scanner.scanLoop src (byteLen src + 1) ⟨0, 0, 1, []⟩ =
          .ok st' ∧
        ts = st'.tokens ++ [⟨.EOF, [], none, st'.line⟩] ∧
        ∀ tk ∈ st'.tokens, tk.token_type ≠ .EOF ∧
          ∃ u v, u ++ tk.lexeme ++ v = src := by
  intro src ts h
  rw [Scanner.scan_tokens] at h
  split at h
  · next st' hloop =>
      cases h
      refine ⟨st', hloop, rfl, ?_⟩
      rcases Scanner.scanLoop_spec _ _ _ hloop with ⟨new, hts, hok⟩
      intro tk hm
      exact hok tk (by rwa [hts, List.nil_append] at hm)
  · cases h
  · cases h

/-- C6 witness: the shape properties hold on the concrete scan of
`1+2`. -/
theorem C6_scan_tokens_witness :
    Scanner.scan_tokens srcOnePlusTwo = .toks toksOnePlusTwo ∧
    (∃ st', Scanner.scanLoop srcOnePlusTwo (byteLen srcOnePlusTwo + 1)
        ⟨0, 0, 1, []⟩ = .ok st' ∧
      toksOnePlusTwo = st'.tokens ++ [⟨.EOF, [], none, st'.line⟩] ∧
      ∀ tk ∈ st'.tokens, tk.token_type ≠ .EOF ∧
        ∃ u v, u ++ tk.lexeme ++ v = srcOnePlusTwo) :=
  ⟨by decide, C6_scan_tokens_shape srcOnePlusTwo toksOnePlusTwo (by decide)⟩

/-- C7: binary `+` adds two Numbers (exact sum on the finite
idealisation), concatenates two Strings, and errors on every other
variant combination. -/
theorem C7_add_spec :
    (∀ q1 q2 : ℚ, Value.add (.Number (.finite q1)) (.Number (.finite q2)) =
      .ok (.Number (.finite (q1 + q2)))) ∧
    (∀ n1 n2 : F32, Value.add (.Number n1) (.Number n2) =
      .ok (.Number (F32.add n1 n2))) ∧
    (∀ s1 s2 : List Char, Value.add (.String s1) (.String s2) =
      .ok (.String (s1 ++ s2))) ∧
    (∀ v w : Value, (Value.isNumber v && Value.isNumber w) = false →
      (Value.isString v && Value.isString w) = false →
      Value.add v w = .error .mk) := by
  refine ⟨fun q1 q2 => rfl, fun n1 n2 => rfl, fun s1 s2 => rfl, ?_⟩
  intro v w h1 h2
  cases v <;> cases w <;> simp_all [Value.isNumber, Value.isString, Value.add]

/-- C7 witness: `1 + "a"` errors while `"a" + "b"` concatenates. -/
theorem C7_add_witness :
    Value.add (.Number (.finite 1)) (.String ['a']) = .error .mk ∧
    Value.add (.String ['a']) (.String ['b']) = .ok (.String ['a', 'b']) :=
  ⟨C7_add_spec.2.2.2 _ _ (by decide) (by decide),
   C7_add_spec.2.2.1 ['a'] ['b']⟩

/-- C8: `define` unconditionally binds with no error case and `get`
returns the most recently defined value; `get` errors exactly when the
name was never defined; the program `var x = 1; var x = 2; print x;`
prints `2`. -/
theorem C8_environment_spec :
    (∀ (env : Environment) (t : Token) (v : Value),
      (env.define t.lexeme v).get t = .ok v) ∧
    (∀ (env : Environment) (t : Token) (v1 v2 : Value),
      ((env.define t.lexeme v1).define t.lexeme v2).get t = .ok v2) ∧
    (∀ (env : Environment) (t : Token),
      env.get t = .error .mk ↔ t.lexeme ∉ env.values.map Prod.fst) ∧
    (Interpreter.interpret Environment.new [] [varX1, varX2, printX] =
      some (⟨[(['x'], .Number (.finite 2)), (['x'], .Number (.finite 1))]⟩,
        [['2']])) := by
  have hs : Value.stringify (.Number (.finite 2)) = "2".data := by
    rw [stringify_int_in_range (by decide) (by decide) (by decide)]
    decide
  refine ⟨?_, ?_, ?_, ?_⟩
  · intro env t v
    simp [Environment.define, Environment.get, List.lookup]
  · intro env t v1 v2
    simp [Environment.define, Environment.get, List.lookup]
  · intro env t
    cases hl : List.lookup t.lexeme env.values with
    | none =>
        simp [Environment.get, hl, (lookup_eq_none_iff env.values).mp hl]
    | some v =>
        have hmem : t.lexeme ∈ env.values.map Prod.fst := by
          by_contra hn
          rw [← lookup_eq_none_iff] at hn
          rw [hn] at hl
          cases hl
        simp [Environment.get, hl, hmem]
  · simp [varX1, varX2, printX, xTok, numTok, tok, Interpreter.interpret,
      Interpreter.execute, Interpreter.statement, Interpreter.evaluate,
      Interpreter.literal, Environment.new, Environment.define,
      Environment.get, List.lookup, hs]

/-- C9 counterexample: `10000000000` has zero fractional part but
stringifies through the saturating `as i32` cast to `2147483647`, not
to its exact integer decimal representation. -/
theorem C9_saturation_counterexample :
    F32.beq (F32.fract (.finite 10000000000)) (.finite 0) = true ∧
    Value.stringify (.Number (.finite 10000000000)) = "2147483647".data ∧
    "2147483647".data ≠ "10000000000".data := by
  refine ⟨(fract_beq_zero_iff _).mpr (by decide), ?_, by decide⟩
  rw [stringify_int_saturate_hi (by decide) (by decide)]
  decide

/-- C9 (amended): a Number with zero fractional part whose value fits
in the `i32` range prints as its exact integer decimal representation;
outside that range the printed integer saturates to the `i32` bound;
non-integral finite numbers print through the float display; Boolean
prints true/false, String verbatim, Null `nil`. -/
theorem C9_stringify_spec :
    (∀ q : ℚ, q.den = 1 → -(2 ^ 31) ≤ q.num → q.num ≤ 2 ^ 31 - 1 →
      Value.stringify (.Number (.finite q)) = (Int.repr q.num).data) ∧
    (∀ q : ℚ, q.den = 1 → 2 ^ 31 - 1 < q.num →
      Value.stringify (.Number (.finite q)) =
        (Int.repr (2 ^ 31 - 1)).data) ∧
    (∀ q : ℚ, q.den = 1 → q.num < -(2 ^ 31) →
      Value.stringify (.Number (.finite q)) =
        (Int.repr (-(2 ^ 31))).data) ∧
    (∀ q : ℚ, q.den ≠ 1 →
      Value.stringify (.Number (.finite q)) = F32.display (.finite q)) ∧
    (∀ b, Value.stringify (.Boolean b) =
      (if b then "true" else "false").data) ∧
    (∀ s, Value.stringify (.String s) = s) ∧
    (Value.stringify .Null = "nil".data) := by
  exact ⟨fun q h1 h2 h3 => stringify_int_in_range h1 h2 h3,
    fun q h1 h2 => stringify_int_saturate_hi h1 h2,
    fun q h1 h2 => stringify_int_saturate_lo h1 h2,
    fun q h1 => stringify_nonintegral h1,
    fun b => rfl, fun s => rfl, rfl⟩

/-- C9 witness: the amended stringify rules at concrete numbers. -/
theorem C9_stringify_witness :
    Value.stringify (.Number (.finite 2)) = "2".data ∧
    Value.stringify (.Number (.finite 2147483648)) = "2147483647".data := by
  constructor
  · rw [C9_stringify_spec.1 2 (by decide) (by decide) (by decide)]
    decide
  · rw [C9_stringify_spec.2.1 2147483648 (by decide) (by decide)]
    decide

/-- C10: executing an expression or print statement returns the
environment unchanged (expression evaluation itself takes the
environment read-only, as `&self` does in the source); a var
declaration extends the environment with exactly its own binding on
success and leaves it unchanged on failure. -/
theorem C10_statement_frame :
    ∀ (env : Environment) (out : List (List Char)) (e : Expression)
      (d : VarDeclaration),
      ((Interpreter.statement env out (.Expression e)).2.1 = env) ∧
      ((Interpreter.statement env out (.Print e)).2.1 = env) ∧
      (∀ v, (Interpreter.statement env out (.VarDeclaration d)).1 = .ok v →
        (Interpreter.statement env out (.VarDeclaration d)).2.1 =
          env.define d.name.lexeme v) ∧
      (∀ er, (Interpreter.statement env out (.VarDeclaration d)).1 =
          .error er →
        (Interpreter.statement env out (.VarDeclaration d)).2.1 = env) := by
  intro env out e d
  refine ⟨rfl, ?_, ?_, ?_⟩
  · cases hev : Interpreter.evaluate env e <;>
      simp [Interpreter.statement, hev]
  · intro v hv
    cases d with
    | mk name ini =>
        cases ini with
        | none =>
            simp [Interpreter.statement] at hv ⊢
            rw [← hv]
        | some ie =>
            cases hev : Interpreter.evaluate env ie with
            | ok w =>
                simp [Interpreter.statement, hev] at hv ⊢
                rw [← hv]
            | error er => simp [Interpreter.statement, hev] at hv
  · intro er her
    cases d with
    | mk name ini =>
        cases ini with
        | none => simp [Interpreter.statement] at her
        | some ie =>
            cases hev : Interpreter.evaluate env ie with
            | ok w => simp [Interpreter.statement, hev] at her
            | error e2 => simp [Interpreter.statement, hev]

/-- C10 witness: the frame property at a concrete var declaration. -/
theorem C10_statement_frame_witness :
    (Interpreter.statement Environment.new []
      (.VarDeclaration ⟨xTok, some (.Literal (.Boolean true))⟩)).2.1 =
      Environment.new.define xTok.lexeme (.Boolean true) :=
  (C10_statement_frame Environment.new [] (.Literal (.Boolean true))
    ⟨xTok, some (.Literal (.Boolean true))⟩).2.2.1 (.Boolean true) (by rfl)

end Rlox
